import Mathlib

/-!
Shallow embedding of the n8n-agent streaming stack:

* `src/stream_parser.py` — `StreamChunk.__post_init__`, `N8nStreamParser.parse_line`,
  `get_complete_content`, `get_stream_stats`, `StreamingContentProcessor.add_callback`;
* `src/streaming_webhook.py` — `StreamingWebhookHandler.send_streaming_request`,
  `process_stream`;
* `src/chatbot_app.py` — `process_chat_message`, `process_streaming_response`.

Modelling conventions:

* Python's dynamically typed JSON values (`json.loads` results) are the inductive
  `Json`; dict lookup `d.get(k, default)` is `(jlookup fields k).getD default`
  (last binding wins, as in a Python dict built by `json.loads`); Python truthiness
  is `jtruthy`.
* A raw input line is modelled by the outcome of stripping and `json.loads` on it
  (`RawLine`): the empty string, a non-empty all-whitespace line, a non-blank line
  that fails JSON decoding, or a decoded `Json` value.  JSON decoding itself is the
  standard library, not repository code.
* Fallible Python code returns `Except PyErr`; the exceptions the modelled
  paths can raise are `AttributeError` (attribute/method lookup on a value that
  lacks it), `TypeError` (`str.join` over a non-string element), and the
  uncaught platform exception of `datetime.fromtimestamp` on extreme inputs
  (below), collapsed into `PyErr.overflowError`.
* `datetime.fromtimestamp(ts / 1000)` instants are modelled by their
  epoch-millisecond value (an `Int`).  The conversion's outcome is modelled by
  `fromtimestampMs`, with the outcome zones of CPython on a 64-bit glibc
  platform and the local timezone taken as UTC: an instant within `datetime`'s
  year range 1..9999 converts; an instant beyond that range but within the
  platform's `localtime` range raises `ValueError`, which `__post_init__`
  catches (`except (ValueError, TypeError)`), leaving the instant unset; an
  instant beyond the platform range raises an exception the source does not
  catch (`OSError` from `localtime` past `tm_year`'s `int` range, or
  `OverflowError` from the `time_t` conversion past ±2^63 seconds), modelled
  as the single escaping `PyErr.overflowError`.  The zone boundaries are fixed
  at their UTC values; the sub-millisecond effects of Python's floating-point
  division `ts / 1000` matter only immediately at the boundaries and no
  theorem below depends on them.  Python's `isinstance(ts, (int, float))`
  counts booleans as integers (`True ↦ 1`, `False ↦ 0`), which the model
  mirrors.
* The WebSocket client channel is modelled as a reliable sink: the events pushed
  to it are collected into a list.  The transport outcome of the outbound HTTP
  call is resolved up front (`Transport`).
-/

namespace N8nAgent

/-- A decoded JSON value, as produced by Python's `json.loads`. -/
inductive Json where
  | null
  | bool (b : Bool)
  | num (n : Int)
  | str (s : String)
  | arr (elts : List Json)
  | obj (fields : List (String × Json))

/-- The Python exceptions the modelled code paths can raise past the broad
`except` clauses: `attributeError` and `typeError` as such, and
`overflowError` standing for the uncaught exception of
`datetime.fromtimestamp` on an instant beyond the platform's conversion
range (`OverflowError` or `OSError`, neither caught by
`except (ValueError, TypeError)`). -/
inductive PyErr where
  | attributeError
  | typeError
  | overflowError
deriving DecidableEq

/-- Python `dict.get` lookup over the bindings of a JSON object: the last
binding for the key wins (as in a dict built by `json.loads`); `none` when the
key is absent. -/
def jlookup (fields : List (String × Json)) (k : String) : Option Json :=
  match fields with
  | [] => none
  | (k', v) :: rest =>
      match jlookup rest k with
      | some r => some r
      | none => if k' == k then some v else none

/-- Python truthiness of a JSON value (`None`, `False`, `0`, `""`, `[]`, `{}`
are falsy). -/
def jtruthy : Json → Bool
  | .null => false
  | .bool b => b
  | .num n => n != 0
  | .str s => !s.isEmpty
  | .arr l => !l.isEmpty
  | .obj l => !l.isEmpty

/-- Python `isinstance(v, (int, float))`; booleans count as integers. -/
def pyIsNumber : Json → Bool
  | .num _ => true
  | .bool _ => true
  | _ => false

/-- Numeric value of a JSON value under Python arithmetic (`True ↦ 1`,
`False ↦ 0`); only consulted after `pyIsNumber`. -/
def pyNumVal : Json → Int
  | .num n => n
  | .bool b => if b then 1 else 0
  | _ => 0

/-- Python `v == lit` where `lit` is a string literal: true only for an equal
string (comparison of a string with any non-string value is `False`). -/
def isStr (j : Json) (t : String) : Bool :=
  match j with
  | .str s => s == t
  | _ => false

/-- Whether a JSON value is a string (used to model `str.join`'s element check). -/
def contentIsStr : Json → Bool
  | .str _ => true
  | _ => false

/-- One raw line of the agent's stream, abstracted by the outcome of the
standard-library operations applied to it: `empty` is the empty string,
`blank` a non-empty line that strips to empty, `malformed` a non-blank line
on which `json.loads` raises `JSONDecodeError`, `value` a line that decodes
to the given JSON value (stripping never changes JSON validity). -/
inductive RawLine where
  | empty
  | blank (raw : String)
  | malformed (raw : String)
  | value (j : Json)

/-- `StreamChunk` of `src/stream_parser.py`: the `type`, `content` and
`metadata` fields hold whatever JSON values the line supplied (the source is
dynamically typed); `timestamp` is the optional instant set by
`__post_init__`, modelled as epoch milliseconds. -/
structure StreamChunk where
  type : Json
  content : Json
  metadata : Json
  timestamp : Option Int

/-- First epoch millisecond of year 1 (`datetime.min`, `0001-01-01T00:00:00`)
at UTC: below it `datetime.fromtimestamp` raises `ValueError` ("year … is out
of range"). -/
def minDatetimeMs : Int := -62135596800000

/-- Last epoch millisecond of year 9999 (`datetime.max`,
`9999-12-31T23:59:59.999…`) at UTC: above it `datetime.fromtimestamp` raises
`ValueError` ("year … is out of range"). -/
def maxDatetimeMs : Int := 253402300799999

/-- First epoch millisecond of year −2147481748 (`tm_year = INT_MIN`) at
UTC, the earliest instant the platform's `localtime` can represent: below
it the conversion raises an exception `__post_init__` does not catch. -/
def minPlatformMs : Int := -67768040609740800000

/-- Last epoch millisecond of year 2147485547 (`tm_year = INT_MAX`) at UTC,
the latest instant the platform's `localtime` can represent: above it the
conversion raises an exception `__post_init__` does not catch (`OSError`
from `localtime`, or `OverflowError` from the `time_t` conversion past
2^63 seconds). -/
def maxPlatformMs : Int := 67768036191676799999

/-- The three outcomes of `datetime.fromtimestamp(ts / 1000)`: a converted
instant, a `ValueError` for a year outside 1..9999 (caught by
`__post_init__`), or an uncaught platform exception for instants the
platform cannot convert at all. -/
inductive FromtimestampResult where
  | instant (ms : Int)
  | rangeError
  | overflow

/-- Outcome of `datetime.fromtimestamp(ts / 1000)` for an epoch-millisecond
value `ts`, per the zone boundaries above (CPython, 64-bit glibc, UTC). -/
def fromtimestampMs (ts : Int) : FromtimestampResult :=
  if ts < minPlatformMs ∨ maxPlatformMs < ts then .overflow
  else if ts < minDatetimeMs ∨ maxDatetimeMs < ts then .rangeError
  else .instant ts

/-- `StreamChunk.__post_init__` (src/stream_parser.py lines 20-28): when
`metadata.get('timestamp')` is truthy and the value is numeric
(`isinstance(ts, (int, float))`, booleans included), the instant is computed
by `datetime.fromtimestamp(ts / 1000)`: a converted instant is stored; a
`ValueError` (instant out of `datetime`'s year range) is caught by
`except (ValueError, TypeError)`, leaving the dataclass default `None`; an
instant beyond the platform's conversion range raises an exception that
clause does not catch, which escapes.  A falsy, non-numeric or absent
timestamp leaves the default `None`.  When `metadata` is not a dict,
`metadata.get` raises `AttributeError`, which is not caught either. -/
def mkStreamChunk (t c m : Json) : Except PyErr StreamChunk :=
  match m with
  | .obj mf =>
      let ts := (jlookup mf "timestamp").getD Json.null
      if jtruthy ts then
        if pyIsNumber ts then
          match fromtimestampMs (pyNumVal ts) with
          | .instant ms => .ok ⟨t, c, m, some ms⟩
          | .rangeError => .ok ⟨t, c, m, none⟩
          | .overflow => .error .overflowError
        else .ok ⟨t, c, m, none⟩
      else .ok ⟨t, c, m, none⟩
  | _ => .error .attributeError

/-- The three non-raising outcomes of `parse_line`: a parsed event (the chunk
was appended and returned), a silently skipped empty line (`return None`
before the `try`), or a logged malformed line (`return None` in the
`except json.JSONDecodeError` clause). -/
inductive ParseOutcome where
  | event (c : StreamChunk)
  | skippedEmpty
  | parseError (raw : String)

/-- `N8nStreamParser.parse_line` (src/stream_parser.py lines 39-72) over the
parser's `self.chunks` state: strips the line, skips it when empty, recovers
a JSON decode failure as a logged skip, and otherwise reads `type`
(default `'unknown'`), `content` (default `''`) and `metadata`
(default `{}`) from the decoded object, appends the constructed chunk and
returns it.  `data.get` on a decoded non-object raises `AttributeError`
(only `json.JSONDecodeError` is caught), as does chunk construction on a
non-dict `metadata`. -/
def parse_line (chunks : List StreamChunk) (line : RawLine) :
    Except PyErr (List StreamChunk × ParseOutcome) :=
  match line with
  | .empty => .ok (chunks, .skippedEmpty)
  | .blank _ => .ok (chunks, .skippedEmpty)
  | .malformed raw => .ok (chunks, .parseError raw)
  | .value j =>
      match j with
      | .obj fields =>
          let ctype := (jlookup fields "type").getD (Json.str "unknown")
          let content := (jlookup fields "content").getD (Json.str "")
          let metadata := (jlookup fields "metadata").getD (Json.obj [])
          match mkStreamChunk ctype content metadata with
          | .error e => .error e
          | .ok c => .ok (chunks ++ [c], .event c)
      | _ => .error .attributeError

/-- Feeding a list of lines to one parser via `parse_line`, threading
`self.chunks`; an escaping exception aborts the feed. -/
def feedAll (chunks : List StreamChunk) : List RawLine → Except PyErr (List StreamChunk)
  | [] => .ok chunks
  | l :: rest =>
      match parse_line chunks l with
      | .error e => .error e
      | .ok (st, _) => feedAll st rest

/-- Python `''.join(parts)`: concatenates string elements left to right and
raises `TypeError` at the first non-string element. -/
def pyJoin : List Json → Except PyErr String
  | [] => .ok ""
  | j :: rest =>
      match j with
      | .str s =>
          match pyJoin rest with
          | .ok r => .ok (s ++ r)
          | .error e => .error e
      | _ => .error .typeError

/-- `N8nStreamParser.get_complete_content` (src/stream_parser.py lines
89-95): joins the contents of the recorded chunks whose `type == 'item'` and
whose `content` is truthy. -/
def get_complete_content (chunks : List StreamChunk) : Except PyErr String :=
  pyJoin ((chunks.filter (fun c => isStr c.type "item" && jtruthy c.content)).map (·.content))

/-- Maximum of a list of instants (Python `max(timestamps)`); only consulted
on lists of length ≥ 2. -/
def listMax : List Int → Int
  | [] => 0
  | x :: rest => rest.foldl max x

/-- Minimum of a list of instants (Python `min(timestamps)`). -/
def listMin : List Int → Int
  | [] => 0
  | x :: rest => rest.foldl min x

/-- The dictionary returned by `N8nStreamParser.get_stream_stats`;
`duration_ms` models the optional `duration_seconds` entry by the elapsed
milliseconds (the source divides by 1000 via `total_seconds()`). -/
structure StreamStats where
  total_chunks : Nat
  content_chunks : Nat
  start_chunks : Nat
  end_chunks : Nat
  total_content_length : Nat
  has_start : Bool
  has_end : Bool
  duration_ms : Option Int

/-- `N8nStreamParser.get_stream_stats` (src/stream_parser.py lines 109-126):
counts over `self.chunks`, the length of `get_complete_content()` (whose
`TypeError` propagates), and a duration entry only when at least two chunks
carry an extracted timestamp. -/
def get_stream_stats (chunks : List StreamChunk) : Except PyErr StreamStats :=
  match get_complete_content chunks with
  | .error e => .error e
  | .ok content =>
      let tss := chunks.filterMap (·.timestamp)
      .ok ⟨chunks.length,
           (chunks.filter (fun c => isStr c.type "item")).length,
           (chunks.filter (fun c => isStr c.type "start")).length,
           (chunks.filter (fun c => isStr c.type "end")).length,
           content.length,
           chunks.any (fun c => isStr c.type "start"),
           chunks.any (fun c => isStr c.type "end"),
           if 2 ≤ tss.length then some (listMax tss - listMin tss) else none⟩

/-- The attribute names bound on a `StreamingContentProcessor` by its
`__init__` (src/stream_parser.py lines 150-153): `self.parser`,
`self.processed_content`, `self.processing_callbacks`. -/
def streamingContentProcessorInitAttrs : List String :=
  ["parser", "processed_content", "processing_callbacks"]

/-- `StreamingContentProcessor.add_callback` (src/stream_parser.py lines
155-157): its body is `self.processed_callbacks.append(callback)`, whose
first step is the attribute lookup `self.processed_callbacks` on the object's
bound attributes; the `callback` argument is never consulted before that
lookup, which raises `AttributeError` when the attribute is unbound. -/
def add_callback (attrs : List String) (_callback : α) : Except PyErr Unit :=
  if attrs.contains "processed_callbacks" then .ok () else .error .attributeError

/-! ## src/streaming_webhook.py -/

/-- The resolved outcome of the outbound streaming HTTP call made by
`StreamingWebhookHandler.send_streaming_request`: an exception from
`session.post`/`iter_lines` (`requests.exceptions.Timeout`,
`requests.exceptions.ConnectionError`, or any other exception caught by the
broad `except Exception`), or a response with a status code and its raw
lines. -/
inductive Transport where
  | timeout
  | connectionError
  | otherError
  | response (status : Nat) (lines : List RawLine)

/-- `StreamingWebhookHandler.send_streaming_request` (src/streaming_webhook.py
lines 27-74), as the list of values the generator yields: nothing on a
transport exception (each is caught and only printed) or a non-200 status;
otherwise each non-empty line that decodes as JSON is yielded (`if line:`
skips empty lines; a `json.JSONDecodeError` is printed and skipped). -/
def sendStreamingRequest : Transport → List Json
  | .timeout => []
  | .connectionError => []
  | .otherError => []
  | .response status lines =>
      if status != 200 then []
      else lines.filterMap (fun l =>
        match l with
        | .empty => none
        | .blank _ => none
        | .malformed _ => none
        | .value j => some j)

/-- The loop body of `StreamingWebhookHandler.process_stream`
(src/streaming_webhook.py lines 93-126) over the values yielded by
`send_streaming_request`: accumulates each truthy `content` of an
`'item'` chunk (each such content is also handed to `on_chunk` in arrival
order — the first component), breaks on an `'end'` chunk, ignores other
types, and finally joins the parts (`''.join`).  `chunk.get` on a yielded
non-dict value raises `AttributeError`; the first component is the list of
contents handed to `on_chunk` before the return or the escaping exception. -/
def runProcessStream : List Json → List Json → List Json × Except PyErr String
  | [], parts => (parts, pyJoin parts)
  | v :: rest, parts =>
      match v with
      | .obj fields =>
          let t := (jlookup fields "type").getD (Json.str "unknown")
          if isStr t "item" then
            let c := (jlookup fields "content").getD (Json.str "")
            if jtruthy c then runProcessStream rest (parts ++ [c])
            else runProcessStream rest parts
          else if isStr t "end" then (parts, pyJoin parts)
          else runProcessStream rest parts
      | _ => (parts, .error .attributeError)

/-- `StreamingWebhookHandler.process_stream` as its return value (or escaping
exception): the assembled content `''.join(content_parts)`. -/
def process_stream (t : Transport) : Except PyErr String :=
  (runProcessStream (sendStreamingRequest t) []).2

/-! ## src/chatbot_app.py -/

/-- One event pushed to the client WebSocket by the orchestrator
(`websocket.send_text` of a JSON envelope): the initial ack, a forwarded
content chunk, the final completion notice, or an error notice. -/
inductive SentEvent where
  | ack
  | chunk (content : Json)
  | complete (msg : String)
  | error (msg : String)

/-- The `stream_worker` thread of `process_streaming_response`
(src/chatbot_app.py lines 139-163): it runs `process_stream` with the
`on_chunk`/`on_complete` callbacks; the first component is the list of
contents enqueued as `"chunk"` events (in arrival order), the second is
`some content` when `process_stream` returned (so `on_complete` enqueued a
`"complete"` event carrying `content`) and `none` when it raised (the
exception dies with the thread and nothing terminal is enqueued). -/
def workerRun (t : Transport) : List Json × Option String :=
  let r := runProcessStream (sendStreamingRequest t) []
  (r.1, match r.2 with
        | .ok s => some s
        | .error _ => none)

/-- `process_streaming_response` (src/chatbot_app.py lines 130-186): the
consumer loop drains the FIFO queue, sending every `"chunk"` event to the
client in order; on a `"complete"` event it records the content and breaks;
if the worker died without completing, the loop exits once the queue is
empty and `complete_response` keeps its initial `""`.  Returns the events
sent and the final `complete_response`. -/
def process_streaming_response (t : Transport) : List SentEvent × String :=
  let r := workerRun t
  (r.1.map SentEvent.chunk, r.2.getD "")

/-- `process_chat_message` (src/chatbot_app.py lines 85-127), as the sequence
of events sent to the client: the ack first, then the events sent by
`process_streaming_response`, then — only when the returned
`complete_response` is truthy (`if complete_response:`) — one completion
notice.  Client sends are modelled as reliable, so the `except` branch that
would send an error notice is unreachable. -/
def process_chat_message (t : Transport) : List SentEvent :=
  let r := process_streaming_response t
  SentEvent.ack :: (r.1 ++ (if r.2.isEmpty then [] else [SentEvent.complete r.2]))

/-! ## Derived descriptions used in claim statements -/

/-- Whether a chunk is an item event (`chunk.type == 'item'`). -/
def isItemChunk (c : StreamChunk) : Bool :=
  isStr c.type "item"

/-- The chunk a single line contributes when fed to a fresh parser, if any. -/
def lineChunk? (l : RawLine) : Option StreamChunk :=
  match parse_line [] l with
  | .ok (_, .event c) => some c
  | _ => none

/-- Whether a line is successfully parsed into an event by `parse_line`. -/
def parsedOk (l : RawLine) : Bool :=
  (lineChunk? l).isSome

/-- Whether a line is successfully parsed into an item event. -/
def parsedItemOk (l : RawLine) : Bool :=
  match lineChunk? l with
  | some c => isItemChunk c
  | none => false

/-- The string content of an item chunk, when its content is a string. -/
def itemStr? (c : StreamChunk) : Option String :=
  if isItemChunk c then
    match c.content with
    | .str s => some s
    | _ => none
  else none

/-- The item contents (as strings, empty ones included) contributed by a list
of lines, in arrival order. -/
def lineItemStrs (lines : List RawLine) : List String :=
  lines.filterMap (fun l => (lineChunk? l).bind itemStr?)

/-- The item contents (as strings, empty ones included) of a chunk sequence,
in arrival order. -/
def itemStrs (chunks : List StreamChunk) : List String :=
  chunks.filterMap itemStr?

/-- Concatenation of a list of strings in order (`c1 ++ ... ++ cN`). -/
def concatAll : List String → String
  | [] => ""
  | s :: rest => s ++ concatAll rest

/-- The truthy item contents of a yielded value sequence up to (excluding)
the first `'end'` value, stopping at the first non-object value: exactly the
contents `process_stream` forwards, described directly over the input. -/
def collectPrefix : List Json → List Json
  | [] => []
  | v :: rest =>
      match v with
      | .obj fields =>
          let t := (jlookup fields "type").getD (Json.str "unknown")
          if isStr t "item" then
            let c := (jlookup fields "content").getD (Json.str "")
            if jtruthy c then c :: collectPrefix rest else collectPrefix rest
          else if isStr t "end" then []
          else collectPrefix rest
      | _ => []

/-- Whether a line decodes to a JSON object whose `type` field (default
`'unknown'`) equals the given string. -/
def lineTypeIs (l : RawLine) (t : String) : Bool :=
  match l with
  | .value (.obj fields) => isStr ((jlookup fields "type").getD (Json.str "unknown")) t
  | _ => false

/-- No item line occurs after an end line in the sequence. -/
def noItemAfterEnd : List RawLine → Bool
  | [] => true
  | l :: rest =>
      if lineTypeIs l "end" then rest.all (fun x => !lineTypeIs x "item")
      else noItemAfterEnd rest

/-- Whether a line decodes to a JSON object. -/
def lineIsObj : RawLine → Bool
  | .value (.obj _) => true
  | _ => false

/-- Whether a timestamp value cannot make `__post_init__` raise: either the
truthy-and-numeric guard does not fire, or the conversion does not hit the
platform's escaping exception. -/
def tsSafe (v : Json) : Bool :=
  !(jtruthy v && pyIsNumber v) ||
    (match fromtimestampMs (pyNumVal v) with
     | .overflow => false
     | _ => true)

/-- Whether a line's `metadata` field, when present, is a JSON object whose
`timestamp` value cannot make the conversion raise (so that
`StreamChunk.__post_init__` does not raise on the line). -/
def lineMetaOk : RawLine → Bool
  | .value (.obj fields) =>
      match jlookup fields "metadata" with
      | none => true
      | some (.obj mf) => tsSafe ((jlookup mf "timestamp").getD Json.null)
      | some _ => false
  | _ => true

/-- A transport outcome on which the producer yields no line: an exception
from the call, or a non-success HTTP status. -/
def isTransportFailure : Transport → Bool
  | .timeout => true
  | .connectionError => true
  | .otherError => true
  | .response status _ => status != 200

/-- Whether a client-delivered event is terminal (completion or error notice). -/
def isTerminalEvent : SentEvent → Bool
  | .complete _ => true
  | .error _ => true
  | _ => false

/-- Whether a JSON value is an object. -/
def isObjJson : Json → Bool
  | .obj _ => true
  | _ => false

/-- The decoded JSON value of a line, when it has one. -/
def lineVal? : RawLine → Option Json
  | .value j => some j
  | _ => none

/-- The contents selected by `get_complete_content`'s filter: the contents of
the item chunks whose content is truthy, in arrival order. -/
def truthyItemContents (chunks : List StreamChunk) : List Json :=
  (chunks.filter (fun c => isStr c.type "item" && jtruthy c.content)).map (·.content)

/-! ## Concrete sample lines (used by witnesses and counterexamples) -/

/-- A `start` line whose metadata carries a numeric millisecond timestamp. -/
def startLine (ts : Int) : RawLine :=
  .value (.obj [("type", .str "start"), ("metadata", .obj [("timestamp", .num ts)])])

/-- An `item` line with the given string content and no metadata. -/
def itemLine (s : String) : RawLine :=
  .value (.obj [("type", .str "item"), ("content", .str s)])

/-- An `item` line with the given string content and a numeric timestamp. -/
def itemLineTs (s : String) (ts : Int) : RawLine :=
  .value (.obj [("type", .str "item"), ("content", .str s),
                ("metadata", .obj [("timestamp", .num ts)])])

/-- An `end` line with no metadata. -/
def endLine : RawLine :=
  .value (.obj [("type", .str "end")])

/-- An `end` line with a numeric timestamp. -/
def endLineTs (ts : Int) : RawLine :=
  .value (.obj [("type", .str "end"), ("metadata", .obj [("timestamp", .num ts)])])

/-! ## Lemmas about the parser -/

theorem parse_line_nil_cases (l : RawLine) :
    (∃ e, parse_line [] l = .error e ∧ lineChunk? l = none) ∨
    (∃ o, parse_line [] l = .ok ([], o) ∧ lineChunk? l = none) ∨
    (∃ c, parse_line [] l = .ok ([c], .event c) ∧ lineChunk? l = some c) := by
  cases l with
  | empty => exact Or.inr (Or.inl ⟨.skippedEmpty, rfl, rfl⟩)
  | blank raw => exact Or.inr (Or.inl ⟨.skippedEmpty, rfl, rfl⟩)
  | malformed raw => exact Or.inr (Or.inl ⟨.parseError raw, rfl, rfl⟩)
  | value j =>
    cases j with
    | obj fields =>
      cases hm : mkStreamChunk ((jlookup fields "type").getD (Json.str "unknown"))
          ((jlookup fields "content").getD (Json.str ""))
          ((jlookup fields "metadata").getD (Json.obj [])) with
      | error e =>
        refine Or.inl ⟨e, ?_, ?_⟩ <;> simp [parse_line, lineChunk?, hm]
      | ok c =>
        refine Or.inr (Or.inr ⟨c, ?_, ?_⟩) <;> simp [parse_line, lineChunk?, hm]
    | null => exact Or.inl ⟨.attributeError, rfl, rfl⟩
    | bool b => exact Or.inl ⟨.attributeError, rfl, rfl⟩
    | num n => exact Or.inl ⟨.attributeError, rfl, rfl⟩
    | str s => exact Or.inl ⟨.attributeError, rfl, rfl⟩
    | arr elts => exact Or.inl ⟨.attributeError, rfl, rfl⟩

theorem parse_line_indep (st : List StreamChunk) (l : RawLine) :
    parse_line st l = Except.map (fun p => (st ++ p.1, p.2)) (parse_line [] l) := by
  cases l with
  | empty => simp [parse_line, Except.map]
  | blank raw => simp [parse_line, Except.map]
  | malformed raw => simp [parse_line, Except.map]
  | value j =>
    cases j with
    | obj fields =>
      cases hm : mkStreamChunk ((jlookup fields "type").getD (Json.str "unknown"))
          ((jlookup fields "content").getD (Json.str ""))
          ((jlookup fields "metadata").getD (Json.obj [])) with
      | error e => simp [parse_line, hm, Except.map]
      | ok c => simp [parse_line, hm, Except.map]
    | null => rfl
    | bool b => rfl
    | num n => rfl
    | str s => rfl
    | arr elts => rfl

theorem feedAll_shift (lines : List RawLine) (st : List StreamChunk) :
    feedAll st lines = Except.map (fun cs => st ++ cs) (feedAll [] lines) := by
  induction lines generalizing st with
  | nil => simp [feedAll, Except.map]
  | cons l rest ih =>
    rw [feedAll, feedAll, parse_line_indep st l]
    cases hp : parse_line [] l with
    | error e => rfl
    | ok p =>
      obtain ⟨d, o⟩ := p
      simp only [Except.map]
      rw [ih d, ih (st ++ d)]
      cases feedAll [] rest with
      | error e => rfl
      | ok cs => simp [Except.map, List.append_assoc]

theorem feedAll_filterMap (lines : List RawLine) (chunks : List StreamChunk)
    (h : feedAll [] lines = .ok chunks) : chunks = lines.filterMap lineChunk? := by
  induction lines generalizing chunks with
  | nil =>
    rw [feedAll] at h
    cases h
    rfl
  | cons l rest ih =>
    rw [feedAll] at h
    rcases parse_line_nil_cases l with ⟨e, hp, hc⟩ | ⟨o, hp, hc⟩ | ⟨c, hp, hc⟩
    · rw [hp] at h
      exact absurd h (by simp)
    · rw [hp] at h
      rw [List.filterMap_cons_none hc]
      exact ih chunks h
    · rw [hp] at h
      have h2 : feedAll [c] rest = .ok chunks := h
      rw [feedAll_shift rest [c]] at h2
      cases hr : feedAll [] rest with
      | error e => rw [hr] at h2; exact absurd h2 (by simp [Except.map])
      | ok cs =>
        rw [hr] at h2
        simp only [Except.map, Except.ok.injEq] at h2
        rw [List.filterMap_cons_some hc, ← ih cs hr, ← h2]
        rfl

theorem gcc_eq_pyJoin (chunks : List StreamChunk) :
    get_complete_content chunks = pyJoin (truthyItemContents chunks) := rfl

theorem gcc_eq_concat (chunks : List StreamChunk)
    (h : chunks.all (fun c => !isItemChunk c || contentIsStr c.content) = true) :
    get_complete_content chunks = .ok (concatAll (itemStrs chunks)) := by
  induction chunks with
  | nil => rfl
  | cons c rest ih =>
    rw [List.all_cons, Bool.and_eq_true] at h
    obtain ⟨hc, hrest⟩ := h
    have ihr := ih hrest
    rw [get_complete_content] at ihr ⊢
    rw [itemStrs, List.filterMap_cons, List.filter_cons]
    by_cases hi : isItemChunk c = true
    · have hs : contentIsStr c.content = true := by
        rcases Bool.or_eq_true _ _ |>.mp hc with h1 | h1
        · rw [hi] at h1
          exact absurd h1 (by simp)
        · exact h1
      obtain ⟨s, hcc⟩ : ∃ s, c.content = Json.str s := by
        cases hcs : c.content with
        | str s => exact ⟨s, rfl⟩
        | null => rw [hcs] at hs; exact absurd hs (by simp [contentIsStr])
        | bool b => rw [hcs] at hs; exact absurd hs (by simp [contentIsStr])
        | num n => rw [hcs] at hs; exact absurd hs (by simp [contentIsStr])
        | arr elts => rw [hcs] at hs; exact absurd hs (by simp [contentIsStr])
        | obj fields => rw [hcs] at hs; exact absurd hs (by simp [contentIsStr])
      have hitem : itemStr? c = some s := by
        rw [itemStr?, if_pos hi, hcc]
      rw [hitem]
      by_cases hse : s = ""
      · have htr : (isStr c.type "item" && jtruthy c.content) = false := by
          rw [hcc, hse, show jtruthy (Json.str "") = false from rfl, Bool.and_false]
        rw [htr]
        simp only [Bool.false_eq_true, if_false]
        rw [ihr, concatAll, hse, String.empty_append, itemStrs]
      · have hne : s.isEmpty = false := by
          cases hb : s.isEmpty
          · rfl
          · exact absurd ((String.isEmpty_iff s).mp hb) hse
        have hi2 : isStr c.type "item" = true := hi
        have htr : (isStr c.type "item" && jtruthy c.content) = true := by
          rw [hcc, show jtruthy (Json.str s) = !s.isEmpty from rfl, hne]
          simp [hi2]
        rw [htr]
        simp only [if_true, List.map_cons]
        rw [hcc, pyJoin, ihr, concatAll]
        rfl
    · have hni : isItemChunk c = false := Bool.eq_false_iff.mpr hi
      have hitem : itemStr? c = none := by
        rw [itemStr?, if_neg (by simp [hni])]
      have htr : (isStr c.type "item" && jtruthy c.content) = false := by
        rw [isItemChunk] at hni
        rw [hni, Bool.false_and]
      rw [hitem, htr]
      simp only [Bool.false_eq_true, if_false]
      exact ihr

theorem itemStrs_filterMap (lines : List RawLine) :
    itemStrs (lines.filterMap lineChunk?) = lineItemStrs lines := by
  rw [itemStrs, List.filterMap_filterMap]
  rfl

theorem length_filterMap_eq_length_filter {α β : Type} (f : α → Option β) (l : List α) :
    (l.filterMap f).length = (l.filter (fun a => (f a).isSome)).length := by
  induction l with
  | nil => rfl
  | cons a rest ih =>
    cases h : f a with
    | none => rw [List.filterMap_cons_none h, List.filter_cons]; simp [h, ih]
    | some b => rw [List.filterMap_cons_some h, List.filter_cons]; simp [h, ih]

theorem filter_item_filterMap_length (lines : List RawLine) :
    ((lines.filterMap lineChunk?).filter isItemChunk).length
      = (lines.filter parsedItemOk).length := by
  induction lines with
  | nil => rfl
  | cons l rest ih =>
    cases h : lineChunk? l with
    | none =>
      rw [List.filterMap_cons_none h, List.filter_cons]
      have : parsedItemOk l = false := by rw [parsedItemOk, h]
      simp [this, ih]
    | some c =>
      rw [List.filterMap_cons_some h, List.filter_cons, List.filter_cons]
      have hpi : parsedItemOk l = isItemChunk c := by rw [parsedItemOk, h]
      cases hb : isItemChunk c with
      | false => simp [hpi, hb, ih]
      | true => simp [hpi, hb, ih]

/-! ## Lemmas about the webhook handler loop -/

theorem runProcessStream_fst (vals : List Json) (parts : List Json) :
    (runProcessStream vals parts).1 = parts ++ collectPrefix vals := by
  induction vals generalizing parts with
  | nil => simp [runProcessStream, collectPrefix]
  | cons v rest ih =>
    cases v with
    | obj fields =>
      rw [runProcessStream, collectPrefix]
      by_cases hit : isStr ((jlookup fields "type").getD (Json.str "unknown")) "item" = true
      · rw [if_pos hit, if_pos hit]
        by_cases htr : jtruthy ((jlookup fields "content").getD (Json.str "")) = true
        · rw [if_pos htr, if_pos htr, ih]
          simp [List.append_assoc]
        · rw [if_neg htr, if_neg htr, ih]
      · rw [if_neg hit, if_neg hit]
        by_cases hen : isStr ((jlookup fields "type").getD (Json.str "unknown")) "end" = true
        · rw [if_pos hen, if_pos hen]
          simp
        · rw [if_neg hen, if_neg hen, ih]
    | null => simp [runProcessStream, collectPrefix]
    | bool b => simp [runProcessStream, collectPrefix]
    | num n => simp [runProcessStream, collectPrefix]
    | str s => simp [runProcessStream, collectPrefix]
    | arr elts => simp [runProcessStream, collectPrefix]

theorem runProcessStream_snd (vals : List Json) (parts : List Json)
    (h : vals.all isObjJson = true) :
    (runProcessStream vals parts).2 = pyJoin (parts ++ collectPrefix vals) := by
  induction vals generalizing parts with
  | nil => simp [runProcessStream, collectPrefix]
  | cons v rest ih =>
    rw [List.all_cons, Bool.and_eq_true] at h
    obtain ⟨hv, hrest⟩ := h
    cases v with
    | obj fields =>
      rw [runProcessStream, collectPrefix]
      by_cases hit : isStr ((jlookup fields "type").getD (Json.str "unknown")) "item" = true
      · rw [if_pos hit, if_pos hit]
        by_cases htr : jtruthy ((jlookup fields "content").getD (Json.str "")) = true
        · rw [if_pos htr, if_pos htr, ih _ hrest]
          simp [List.append_assoc]
        · rw [if_neg htr, if_neg htr, ih _ hrest]
      · rw [if_neg hit, if_neg hit]
        by_cases hen : isStr ((jlookup fields "type").getD (Json.str "unknown")) "end" = true
        · rw [if_pos hen, if_pos hen]
          simp
        · rw [if_neg hen, if_neg hen, ih _ hrest]
    | null => exact absurd hv (by simp [isObjJson])
    | bool b => exact absurd hv (by simp [isObjJson])
    | num n => exact absurd hv (by simp [isObjJson])
    | str s => exact absurd hv (by simp [isObjJson])
    | arr elts => exact absurd hv (by simp [isObjJson])

theorem sendStreamingRequest_200 (lines : List RawLine) :
    sendStreamingRequest (.response 200 lines) = lines.filterMap lineVal? := by
  rw [sendStreamingRequest]
  rw [if_neg (by simp)]
  have : (fun l => match l with
      | RawLine.empty => none
      | RawLine.blank _ => none
      | RawLine.malformed _ => none
      | RawLine.value j => some j) = lineVal? := by
    funext l
    cases l <;> rfl
  rw [this]

theorem filterMap_val_all_obj (lines : List RawLine) (h : lines.all lineIsObj = true) :
    (lines.filterMap lineVal?).all isObjJson = true := by
  induction lines with
  | nil => rfl
  | cons l rest ih =>
    rw [List.all_cons, Bool.and_eq_true] at h
    obtain ⟨hl, hrest⟩ := h
    cases l with
    | value j =>
      cases j with
      | obj fields =>
        rw [List.filterMap_cons_some
          (show lineVal? (RawLine.value (Json.obj fields)) = some (Json.obj fields) from rfl)]
        rw [List.all_cons]
        simp [isObjJson, ih hrest]
      | null => exact absurd hl (by simp [lineIsObj])
      | bool b => exact absurd hl (by simp [lineIsObj])
      | num n => exact absurd hl (by simp [lineIsObj])
      | str s => exact absurd hl (by simp [lineIsObj])
      | arr elts => exact absurd hl (by simp [lineIsObj])
    | empty => exact absurd hl (by simp [lineIsObj])
    | blank raw => exact absurd hl (by simp [lineIsObj])
    | malformed raw => exact absurd hl (by simp [lineIsObj])

theorem mkStreamChunk_obj_eq (t c : Json) (mf : List (String × Json)) :
    mkStreamChunk t c (.obj mf)
      = (if jtruthy ((jlookup mf "timestamp").getD Json.null) then
           if pyIsNumber ((jlookup mf "timestamp").getD Json.null) then
             match fromtimestampMs (pyNumVal ((jlookup mf "timestamp").getD Json.null)) with
             | .instant ms => .ok ⟨t, c, .obj mf, some ms⟩
             | .rangeError => .ok ⟨t, c, .obj mf, none⟩
             | .overflow => .error .overflowError
           else .ok ⟨t, c, .obj mf, none⟩
         else .ok ⟨t, c, .obj mf, none⟩) := rfl

theorem lineChunk_obj (fields : List (String × Json))
    (hmeta : lineMetaOk (.value (.obj fields)) = true) :
    ∃ ts, lineChunk? (.value (.obj fields))
      = some ⟨(jlookup fields "type").getD (Json.str "unknown"),
              (jlookup fields "content").getD (Json.str ""),
              (jlookup fields "metadata").getD (Json.obj []), ts⟩ := by
  rw [lineMetaOk] at hmeta
  rw [lineChunk?]
  cases hm : jlookup fields "metadata" with
  | none =>
    refine ⟨none, ?_⟩
    rw [parse_line]
    simp only [hm, Option.getD_none, Option.getD_some]
    rw [show mkStreamChunk ((jlookup fields "type").getD (Json.str "unknown"))
        ((jlookup fields "content").getD (Json.str "")) (Json.obj [])
      = .ok ⟨(jlookup fields "type").getD (Json.str "unknown"),
             (jlookup fields "content").getD (Json.str ""), Json.obj [], none⟩ from rfl]
  | some m =>
    cases m with
    | obj mf =>
      have hts : tsSafe ((jlookup mf "timestamp").getD Json.null) = true := by
        rw [hm] at hmeta
        exact hmeta
      have hmk : ∃ ts, mkStreamChunk ((jlookup fields "type").getD (Json.str "unknown"))
          ((jlookup fields "content").getD (Json.str "")) (Json.obj mf)
          = .ok ⟨(jlookup fields "type").getD (Json.str "unknown"),
                 (jlookup fields "content").getD (Json.str ""), Json.obj mf, ts⟩ := by
        rw [mkStreamChunk_obj_eq]
        by_cases ht : jtruthy ((jlookup mf "timestamp").getD Json.null) = true
        · rw [if_pos ht]
          by_cases hn : pyIsNumber ((jlookup mf "timestamp").getD Json.null) = true
          · rw [if_pos hn]
            cases hf : fromtimestampMs (pyNumVal ((jlookup mf "timestamp").getD Json.null)) with
            | instant ms => exact ⟨some ms, rfl⟩
            | rangeError => exact ⟨none, rfl⟩
            | overflow =>
              rw [tsSafe, ht, hn, hf] at hts
              exact absurd hts (by simp)
          · rw [if_neg hn]
            exact ⟨none, rfl⟩
        · rw [if_neg ht]
          exact ⟨none, rfl⟩
      obtain ⟨ts, hmk⟩ := hmk
      refine ⟨ts, ?_⟩
      rw [parse_line]
      simp only [hm, Option.getD_some]
      rw [hmk]
    | null => rw [hm] at hmeta; exact absurd hmeta (by simp)
    | bool b => rw [hm] at hmeta; exact absurd hmeta (by simp)
    | num n => rw [hm] at hmeta; exact absurd hmeta (by simp)
    | str s => rw [hm] at hmeta; exact absurd hmeta (by simp)
    | arr elts => rw [hm] at hmeta; exact absurd hmeta (by simp)

theorem lineChunk_type (l : RawLine) (c : StreamChunk) (h : lineChunk? l = some c) :
    isItemChunk c = lineTypeIs l "item" := by
  cases l with
  | empty => exact absurd h (by simp [lineChunk?, parse_line])
  | blank raw => exact absurd h (by simp [lineChunk?, parse_line])
  | malformed raw => exact absurd h (by simp [lineChunk?, parse_line])
  | value j =>
    cases j with
    | obj fields =>
      rw [lineChunk?] at h
      rw [lineTypeIs]
      cases hm : mkStreamChunk ((jlookup fields "type").getD (Json.str "unknown"))
          ((jlookup fields "content").getD (Json.str ""))
          ((jlookup fields "metadata").getD (Json.obj [])) with
      | error e =>
        rw [parse_line] at h
        simp only [hm] at h
        exact Option.noConfusion h
      | ok c2 =>
        rw [parse_line] at h
        simp only [hm, Option.some.injEq] at h
        subst h
        have hty : c2.type = (jlookup fields "type").getD (Json.str "unknown") := by
          revert hm
          generalize (jlookup fields "metadata").getD (Json.obj []) = m
          intro hm
          cases m with
          | obj mf =>
            rw [mkStreamChunk_obj_eq] at hm
            split at hm
            · split at hm
              · split at hm
                · cases hm
                  rfl
                · cases hm
                  rfl
                · exact Except.noConfusion hm
              · cases hm
                rfl
            · cases hm
              rfl
          | null => exact Except.noConfusion hm
          | bool b => exact Except.noConfusion hm
          | num n => exact Except.noConfusion hm
          | str s => exact Except.noConfusion hm
          | arr elts => exact Except.noConfusion hm
        rw [isItemChunk, hty]
    | null => exact absurd h (by simp [lineChunk?, parse_line])
    | bool b => exact absurd h (by simp [lineChunk?, parse_line])
    | num n => exact absurd h (by simp [lineChunk?, parse_line])
    | str s => exact absurd h (by simp [lineChunk?, parse_line])
    | arr elts => exact absurd h (by simp [lineChunk?, parse_line])

theorem truthy_nil_of_no_item (lines : List RawLine)
    (h : lines.all (fun x => !lineTypeIs x "item") = true) :
    truthyItemContents (lines.filterMap lineChunk?) = [] := by
  induction lines with
  | nil => rfl
  | cons l rest ih =>
    rw [List.all_cons, Bool.and_eq_true] at h
    obtain ⟨hl, hrest⟩ := h
    cases hc : lineChunk? l with
    | none => rw [List.filterMap_cons_none hc]; exact ih hrest
    | some c =>
      rw [List.filterMap_cons_some hc]
      rw [truthyItemContents, List.filter_cons]
      have : isStr c.type "item" = false := by
        have h2 := lineChunk_type l c hc
        rw [isItemChunk] at h2
        rw [h2]
        cases hb : lineTypeIs l "item"
        · rfl
        · rw [hb] at hl; exact absurd hl (by simp)
      rw [this, Bool.false_and]
      simp only [Bool.false_eq_true, if_false]
      exact ih hrest

theorem isStr_item_not_end (j : Json) (h : isStr j "item" = true) : isStr j "end" = false := by
  cases j with
  | str s =>
    rw [isStr] at h ⊢
    have hs : s = "item" := eq_of_beq h
    subst hs
    decide
  | null => exact absurd h (by simp [isStr])
  | bool b => exact absurd h (by simp [isStr])
  | num n => exact absurd h (by simp [isStr])
  | arr elts => exact absurd h (by simp [isStr])
  | obj fields => exact absurd h (by simp [isStr])

theorem truthy_collect (lines : List RawLine)
    (hobj : lines.all lineIsObj = true) (hmeta : lines.all lineMetaOk = true)
    (hend : noItemAfterEnd lines = true) :
    truthyItemContents (lines.filterMap lineChunk?)
      = collectPrefix (lines.filterMap lineVal?) := by
  induction lines with
  | nil => rfl
  | cons l rest ih =>
    rw [List.all_cons, Bool.and_eq_true] at hobj hmeta
    obtain ⟨hl, hobjr⟩ := hobj
    obtain ⟨hml, hmetar⟩ := hmeta
    cases l with
    | value j =>
      cases j with
      | obj fields =>
        obtain ⟨ts, hch⟩ := lineChunk_obj fields hml
        rw [List.filterMap_cons_some hch]
        rw [List.filterMap_cons_some
          (show lineVal? (RawLine.value (Json.obj fields)) = some (Json.obj fields) from rfl)]
        rw [truthyItemContents, List.filter_cons]
        simp only [collectPrefix]
        by_cases hit : isStr ((jlookup fields "type").getD (Json.str "unknown")) "item" = true
        · have hlend : lineTypeIs (RawLine.value (Json.obj fields)) "end" = false := by
            rw [lineTypeIs]
            exact isStr_item_not_end _ hit
          have hendr : noItemAfterEnd rest = true := by
            rw [noItemAfterEnd, hlend] at hend
            simpa using hend
          have hrec := ih hobjr hmetar hendr
          rw [truthyItemContents] at hrec
          rw [if_pos hit]
          by_cases htr : jtruthy ((jlookup fields "content").getD (Json.str "")) = true
          · have hcond : (isStr ((jlookup fields "type").getD (Json.str "unknown")) "item"
                && jtruthy ((jlookup fields "content").getD (Json.str ""))) = true := by
              rw [Bool.and_eq_true]
              exact ⟨hit, htr⟩
            rw [if_pos hcond, if_pos htr, List.map_cons, hrec]
          · have hcond : ¬((isStr ((jlookup fields "type").getD (Json.str "unknown")) "item"
                && jtruthy ((jlookup fields "content").getD (Json.str ""))) = true) := by
              rw [Bool.and_eq_true]
              exact fun hand => htr hand.2
            rw [if_neg hcond, if_neg htr]
            exact hrec
        · have hitf : isStr ((jlookup fields "type").getD (Json.str "unknown")) "item" = false :=
            Bool.eq_false_iff.mpr hit
          have hcond : ¬((isStr ((jlookup fields "type").getD (Json.str "unknown")) "item"
              && jtruthy ((jlookup fields "content").getD (Json.str ""))) = true) := by
            rw [Bool.and_eq_true]
            exact fun hand => hit hand.1
          rw [if_neg hcond, if_neg hit]
          by_cases hen : isStr ((jlookup fields "type").getD (Json.str "unknown")) "end" = true
          · rw [if_pos hen]
            have hlend : lineTypeIs (RawLine.value (Json.obj fields)) "end" = true := hen
            rw [noItemAfterEnd, hlend] at hend
            simp only [if_true] at hend
            have := truthy_nil_of_no_item rest hend
            rw [truthyItemContents] at this
            exact this
          · rw [if_neg hen]
            have hlend : lineTypeIs (RawLine.value (Json.obj fields)) "end" = false := by
              rw [lineTypeIs]
              exact Bool.eq_false_iff.mpr hen
            have hendr : noItemAfterEnd rest = true := by
              rw [noItemAfterEnd, hlend] at hend
              simpa using hend
            have := ih hobjr hmetar hendr
            rw [truthyItemContents] at this
            exact this
      | null => exact absurd hl (by simp [lineIsObj])
      | bool b => exact absurd hl (by simp [lineIsObj])
      | num n => exact absurd hl (by simp [lineIsObj])
      | str s => exact absurd hl (by simp [lineIsObj])
      | arr elts => exact absurd hl (by simp [lineIsObj])
    | empty => exact absurd hl (by simp [lineIsObj])
    | blank raw => exact absurd hl (by simp [lineIsObj])
    | malformed raw => exact absurd hl (by simp [lineIsObj])

/-! ## Claims -/

/-- C1 (counterexample): the claim says a terminal event is sent even when the
assembled content is empty.  On a 200 response with no lines the assembled
content is `""`, `if complete_response:` is falsy, and the client receives
only the ack — zero terminal events, refuting "exactly one terminal event,
never neither". -/
theorem claim1_counterexample :
    process_chat_message (.response 200 []) = [SentEvent.ack] ∧
    ((process_chat_message (.response 200 [])).filter isTerminalEvent).length = 0 :=
  ⟨rfl, rfl⟩

/-- C1 (amended): for every transport outcome the client receives first the
ack, then the truthy item contents produced before the first end marker,
forwarded as chunk events in arrival order, then one completion notice iff
`process_stream` returned a non-empty assembled content; when the content is
empty or the worker raised, no terminal event is sent, and an error notice is
never sent (it would require a client-send failure). -/
theorem claim1_amended (t : Transport) :
    process_chat_message t
      = SentEvent.ack ::
          ((collectPrefix (sendStreamingRequest t)).map SentEvent.chunk
            ++ match process_stream t with
               | .ok s => if s.isEmpty then [] else [SentEvent.complete s]
               | .error _ => []) := by
  simp only [process_chat_message, process_streaming_response, workerRun, process_stream]
  rw [runProcessStream_fst (sendStreamingRequest t) [], List.nil_append]
  cases hr : (runProcessStream (sendStreamingRequest t) []).2 with
  | ok s => simp
  | error e => simp [String.isEmpty_iff]

/-- C2 (counterexample): the claim says a transport failure surfaces as
exactly one terminal error event.  On a timeout the producer swallows the
exception (it only prints), yields nothing, `process_stream` returns the
empty string, and the orchestrator sends only the ack: no error event and no
terminal event at all. -/
theorem claim2_counterexample :
    sendStreamingRequest Transport.timeout = [] ∧
    process_stream Transport.timeout = .ok "" ∧
    process_chat_message Transport.timeout = [SentEvent.ack] ∧
    ((process_chat_message Transport.timeout).filter isTerminalEvent).length = 0 :=
  ⟨rfl, rfl, rfl, rfl⟩

/-- C2 (amended): every transport failure (timeout, connection failure,
other exception, or non-200 status) is swallowed by the producer: it yields
no values, no item event is forwarded, `process_stream` returns the empty
string, and the orchestrator emits no terminal event — the stream silently
truncates with an empty result instead of surfacing an error event. -/
theorem claim2_amended (t : Transport) (h : isTransportFailure t = true) :
    sendStreamingRequest t = [] ∧ process_stream t = .ok "" ∧
    process_chat_message t = [SentEvent.ack] := by
  cases t with
  | timeout => exact ⟨rfl, rfl, rfl⟩
  | connectionError => exact ⟨rfl, rfl, rfl⟩
  | otherError => exact ⟨rfl, rfl, rfl⟩
  | response status lines =>
    rw [isTransportFailure] at h
    have hsend : sendStreamingRequest (.response status lines) = [] := by
      rw [sendStreamingRequest, if_pos h]
    refine ⟨hsend, ?_, ?_⟩
    · rw [process_stream, hsend]
      rfl
    · simp only [process_chat_message, process_streaming_response, workerRun, hsend]
      rfl

/-- C2 (witness for the amended claim): instantiated at a 500 response. -/
theorem claim2_witness :
    isTransportFailure (Transport.response 500 []) = true ∧
    (sendStreamingRequest (Transport.response 500 []) = [] ∧
     process_stream (Transport.response 500 []) = .ok "" ∧
     process_chat_message (Transport.response 500 []) = [SentEvent.ack]) :=
  ⟨rfl, claim2_amended (Transport.response 500 []) rfl⟩

/-- C3 (counterexample): the claim says the concatenation holds regardless of
metadata contents.  A valid item line whose metadata carries
`timestamp: 10^22` makes `parse_line` raise in `__post_init__`, aborting the
feed with nothing assembled — even a following item line's content is
lost. -/
theorem claim3_counterexample :
    parse_line [] (.value (Json.obj [("type", Json.str "item"),
        ("content", Json.str "a"),
        ("metadata", Json.obj [("timestamp", Json.num 10000000000000000000000)])]))
      = .error .overflowError ∧
    feedAll [] [.value (Json.obj [("type", Json.str "item"),
        ("content", Json.str "a"),
        ("metadata", Json.obj [("timestamp", Json.num 10000000000000000000000)])]),
        itemLine "b"]
      = .error .overflowError :=
  ⟨rfl, rfl⟩

/-- C3 (amended): feeding any line sequence to one parser (item lines
interleaved with start/end/unknown/malformed lines), provided the feed
completes without an escaping exception (a metadata timestamp beyond the
platform's conversion range aborts it) and every recorded item chunk's
content is a string, `get_complete_content()` equals the plain concatenation
of the item contents contributed by the lines, in arrival order — empty
contents included, with no other merge rule, no deduplication, no whitespace
normalization, and non-item events contributing nothing, regardless of the
remaining metadata contents. -/
theorem claim3_concatenation (lines : List RawLine) (chunks : List StreamChunk)
    (hfeed : feedAll [] lines = .ok chunks)
    (hstr : chunks.all (fun c => !isItemChunk c || contentIsStr c.content) = true) :
    get_complete_content chunks = .ok (concatAll (lineItemStrs lines)) := by
  have hc := feedAll_filterMap lines chunks hfeed
  subst hc
  rw [← itemStrs_filterMap]
  exact gcc_eq_concat _ hstr

/-- C3 (witness): a start line, items `"ab"`, `""`, `"cd"`, a malformed line
and an end line assemble to `"abcd"`. -/
theorem claim3_witness :
    feedAll [] [startLine 1000, itemLine "ab", RawLine.malformed "oops",
                itemLine "", itemLine "cd", endLine]
      = .ok [⟨Json.str "start", Json.str "", Json.obj [("timestamp", Json.num 1000)], some 1000⟩,
             ⟨Json.str "item", Json.str "ab", Json.obj [], none⟩,
             ⟨Json.str "item", Json.str "", Json.obj [], none⟩,
             ⟨Json.str "item", Json.str "cd", Json.obj [], none⟩,
             ⟨Json.str "end", Json.str "", Json.obj [], none⟩] ∧
    concatAll (lineItemStrs [startLine 1000, itemLine "ab", RawLine.malformed "oops",
                itemLine "", itemLine "cd", endLine]) = "abcd" ∧
    get_complete_content
        [⟨Json.str "start", Json.str "", Json.obj [("timestamp", Json.num 1000)], some 1000⟩,
         ⟨Json.str "item", Json.str "ab", Json.obj [], none⟩,
         ⟨Json.str "item", Json.str "", Json.obj [], none⟩,
         ⟨Json.str "item", Json.str "cd", Json.obj [], none⟩,
         ⟨Json.str "end", Json.str "", Json.obj [], none⟩]
      = .ok (concatAll (lineItemStrs [startLine 1000, itemLine "ab",
                RawLine.malformed "oops", itemLine "", itemLine "cd", endLine])) :=
  ⟨rfl, rfl,
   claim3_concatenation
     [startLine 1000, itemLine "ab", RawLine.malformed "oops",
      itemLine "", itemLine "cd", endLine]
     [⟨Json.str "start", Json.str "", Json.obj [("timestamp", Json.num 1000)], some 1000⟩,
      ⟨Json.str "item", Json.str "ab", Json.obj [], none⟩,
      ⟨Json.str "item", Json.str "", Json.obj [], none⟩,
      ⟨Json.str "item", Json.str "cd", Json.obj [], none⟩,
      ⟨Json.str "end", Json.str "", Json.obj [], none⟩] rfl rfl⟩

/-- C4 (counterexample): the claim says at most one Start and one End are
recorded and End is terminal.  Feeding two start lines records two start
chunks; feeding an item line after an end line records and assembles it. -/
theorem claim4_counterexample :
    feedAll [] [RawLine.value (Json.obj [("type", Json.str "start")]),
                RawLine.value (Json.obj [("type", Json.str "start")])]
      = .ok [⟨Json.str "start", Json.str "", Json.obj [], none⟩,
             ⟨Json.str "start", Json.str "", Json.obj [], none⟩] ∧
    feedAll [] [endLine, itemLine "x"]
      = .ok [⟨Json.str "end", Json.str "", Json.obj [], none⟩,
             ⟨Json.str "item", Json.str "x", Json.obj [], none⟩] ∧
    get_complete_content [⟨Json.str "end", Json.str "", Json.obj [], none⟩,
                          ⟨Json.str "item", Json.str "x", Json.obj [], none⟩] = .ok "x" :=
  ⟨rfl, rfl, rfl⟩

/-- C4 (amended): `parse_line` enforces no once-only or terminality
invariant: its acceptance, returned outcome and appended chunk are
independent of everything previously recorded — a second start line or any
line after an end line is processed exactly as it would be on a fresh
parser, appended and returned rather than ignored. -/
theorem claim4_amended (st : List StreamChunk) (l : RawLine) :
    parse_line st l = Except.map (fun p => (st ++ p.1, p.2)) (parse_line [] l) :=
  parse_line_indep st l

/-- C5: an empty or all-whitespace line yields no event and is not an error;
a non-blank line that fails JSON decoding yields a recovered parse-error
outcome with no event; neither raises past the parser boundary, neither
changes the recorded chunk state (so `get_complete_content()` is unchanged),
and feeding simply continues with the next line. -/
theorem claim5_malformed_recovery (st : List StreamChunk) (raw : String)
    (rest : List RawLine) :
    parse_line st (.malformed raw) = .ok (st, .parseError raw) ∧
    parse_line st .empty = .ok (st, .skippedEmpty) ∧
    parse_line st (.blank raw) = .ok (st, .skippedEmpty) ∧
    feedAll st (RawLine.malformed raw :: rest) = feedAll st rest ∧
    feedAll st (RawLine.empty :: rest) = feedAll st rest :=
  ⟨rfl, rfl, rfl, rfl, rfl⟩

/-- C6: for any feed that completes without an exception and whose stats
computation succeeds, `total_chunks` is the number of successfully parsed
lines (malformed and empty lines excluded), `content_chunks` is the number
of lines parsed into item events, `total_content_length` is the length of
`get_complete_content()`, and a duration is reported exactly when at least
two recorded chunks carry an extracted timestamp. -/
theorem claim6_stats (lines : List RawLine) (chunks : List StreamChunk)
    (s : StreamStats) (hfeed : feedAll [] lines = .ok chunks)
    (hstats : get_stream_stats chunks = .ok s) :
    s.total_chunks = (lines.filter parsedOk).length ∧
    s.content_chunks = (lines.filter parsedItemOk).length ∧
    (∀ content, get_complete_content chunks = .ok content →
      s.total_content_length = content.length) ∧
    (s.duration_ms.isSome ↔ 2 ≤ (chunks.filterMap (fun c => c.timestamp)).length) := by
  have hc := feedAll_filterMap lines chunks hfeed
  rw [get_stream_stats] at hstats
  cases hg : get_complete_content chunks with
  | error e =>
    rw [hg] at hstats
    exact absurd hstats (by simp)
  | ok content0 =>
    rw [hg] at hstats
    simp only [Except.ok.injEq] at hstats
    subst hstats
    refine ⟨?_, ?_, ?_, ?_⟩
    · show chunks.length = _
      rw [hc, length_filterMap_eq_length_filter]
      rfl
    · show (chunks.filter (fun c => isStr c.type "item")).length = _
      rw [hc]
      exact filter_item_filterMap_length lines
    · intro content hcc
      have h2 : content0 = content := Except.ok.inj hcc
      show content0.length = content.length
      rw [h2]
    · show (if 2 ≤ (chunks.filterMap (fun c => c.timestamp)).length then _ else none).isSome ↔ _
      by_cases h2 : 2 ≤ (chunks.filterMap (fun c => c.timestamp)).length
      · rw [if_pos h2]
        simp [h2]
      · rw [if_neg h2]
        simp [h2]

/-- C6 (witness): four parsed lines (one malformed excluded), two items,
content `"abcd"`, three timestamps giving a 4000 ms duration. -/
theorem claim6_witness :
    feedAll [] [startLine 1000, itemLine "ab", RawLine.malformed "x",
                itemLineTs "cd" 3000, endLineTs 5000]
      = .ok [⟨Json.str "start", Json.str "", Json.obj [("timestamp", Json.num 1000)], some 1000⟩,
             ⟨Json.str "item", Json.str "ab", Json.obj [], none⟩,
             ⟨Json.str "item", Json.str "cd", Json.obj [("timestamp", Json.num 3000)], some 3000⟩,
             ⟨Json.str "end", Json.str "", Json.obj [("timestamp", Json.num 5000)], some 5000⟩] ∧
    get_stream_stats
        [⟨Json.str "start", Json.str "", Json.obj [("timestamp", Json.num 1000)], some 1000⟩,
         ⟨Json.str "item", Json.str "ab", Json.obj [], none⟩,
         ⟨Json.str "item", Json.str "cd", Json.obj [("timestamp", Json.num 3000)], some 3000⟩,
         ⟨Json.str "end", Json.str "", Json.obj [("timestamp", Json.num 5000)], some 5000⟩]
      = .ok ⟨4, 2, 1, 1, 4, true, true, some 4000⟩ ∧
    (4 : Nat) = ([startLine 1000, itemLine "ab", RawLine.malformed "x",
                itemLineTs "cd" 3000, endLineTs 5000].filter parsedOk).length ∧
    (2 : Nat) = ([startLine 1000, itemLine "ab", RawLine.malformed "x",
                itemLineTs "cd" 3000, endLineTs 5000].filter parsedItemOk).length :=
  ⟨rfl, rfl,
   (claim6_stats [startLine 1000, itemLine "ab", RawLine.malformed "x",
        itemLineTs "cd" 3000, endLineTs 5000]
      [⟨Json.str "start", Json.str "", Json.obj [("timestamp", Json.num 1000)], some 1000⟩,
       ⟨Json.str "item", Json.str "ab", Json.obj [], none⟩,
       ⟨Json.str "item", Json.str "cd", Json.obj [("timestamp", Json.num 3000)], some 3000⟩,
       ⟨Json.str "end", Json.str "", Json.obj [("timestamp", Json.num 5000)], some 5000⟩]
      ⟨4, 2, 1, 1, 4, true, true, some 4000⟩ rfl rfl).1,
   (claim6_stats [startLine 1000, itemLine "ab", RawLine.malformed "x",
        itemLineTs "cd" 3000, endLineTs 5000]
      [⟨Json.str "start", Json.str "", Json.obj [("timestamp", Json.num 1000)], some 1000⟩,
       ⟨Json.str "item", Json.str "ab", Json.obj [], none⟩,
       ⟨Json.str "item", Json.str "cd", Json.obj [("timestamp", Json.num 3000)], some 3000⟩,
       ⟨Json.str "end", Json.str "", Json.obj [("timestamp", Json.num 5000)], some 5000⟩]
      ⟨4, 2, 1, 1, 4, true, true, some 4000⟩ rfl rfl).2.1⟩

/-- C7 (counterexample): the claim says a present numeric
`metadata.timestamp` always yields an instant and neither case is ever an
error.  Three refutations: with `timestamp: 0` — present and numeric — the
truthiness guard `if self.metadata.get('timestamp'):` is falsy and the
instant is left unset; with `timestamp: 3·10^14` (year 11476) the caught
`ValueError` leaves the instant unset; and with `timestamp: 10^22` the
conversion raises an exception that escapes `parse_line`. -/
theorem claim7_counterexample :
    jlookup [("timestamp", Json.num 0)] "timestamp" = some (Json.num 0) ∧
    pyIsNumber (Json.num 0) = true ∧
    parse_line [] (.value (Json.obj [("type", Json.str "item"),
        ("metadata", Json.obj [("timestamp", Json.num 0)])]))
      = .ok ([⟨Json.str "item", Json.str "", Json.obj [("timestamp", Json.num 0)], none⟩],
             .event ⟨Json.str "item", Json.str "", Json.obj [("timestamp", Json.num 0)], none⟩) ∧
    mkStreamChunk (Json.str "item") (Json.str "")
        (Json.obj [("timestamp", Json.num 300000000000000)])
      = .ok ⟨Json.str "item", Json.str "",
             Json.obj [("timestamp", Json.num 300000000000000)], none⟩ ∧
    parse_line [] (.value (Json.obj [("type", Json.str "item"),
        ("metadata", Json.obj [("timestamp", Json.num 10000000000000000000000)])]))
      = .error .overflowError :=
  ⟨rfl, rfl, rfl, rfl, rfl⟩

/-- C7 (amended): for any event whose metadata is an object, the guard-and-
conversion pipeline of `__post_init__` behaves as follows.  An absent,
falsy (zero, false, empty, null) or non-numeric `metadata.timestamp` leaves
the instant unset and is never an error.  A truthy numeric value (Python's
`isinstance` counts booleans as integers) is converted by
`datetime.fromtimestamp`: within `datetime`'s year range the instant is set
to the epoch-millisecond value; beyond that range but within the platform's
conversion range the caught `ValueError` leaves the instant unset; and
beyond the platform's range construction raises an exception that escapes
`parse_line` — so "present and numeric implies set" and "never an error"
both fail. -/
theorem claim7_amended (t c : Json) (mf : List (String × Json)) :
    mkStreamChunk t c (.obj mf)
      = (match jlookup mf "timestamp" with
         | some v =>
             if jtruthy v && pyIsNumber v then
               if pyNumVal v < minPlatformMs ∨ maxPlatformMs < pyNumVal v then
                 .error .overflowError
               else if pyNumVal v < minDatetimeMs ∨ maxDatetimeMs < pyNumVal v then
                 .ok ⟨t, c, .obj mf, none⟩
               else .ok ⟨t, c, .obj mf, some (pyNumVal v)⟩
             else .ok ⟨t, c, .obj mf, none⟩
         | none => .ok ⟨t, c, .obj mf, none⟩) := by
  rw [mkStreamChunk_obj_eq]
  cases hv : jlookup mf "timestamp" with
  | none => rfl
  | some v =>
    simp only [Option.getD_some]
    by_cases ht : jtruthy v = true
    · by_cases hn : pyIsNumber v = true
      · have hb : (jtruthy v && pyIsNumber v) = true := by
          rw [Bool.and_eq_true]
          exact ⟨ht, hn⟩
        rw [if_pos ht, if_pos hn, if_pos hb]
        by_cases ho : pyNumVal v < minPlatformMs ∨ maxPlatformMs < pyNumVal v
        · have hf : fromtimestampMs (pyNumVal v) = .overflow := by
            rw [fromtimestampMs, if_pos ho]
          rw [hf, if_pos ho]
        · by_cases hr : pyNumVal v < minDatetimeMs ∨ maxDatetimeMs < pyNumVal v
          · have hf : fromtimestampMs (pyNumVal v) = .rangeError := by
              rw [fromtimestampMs, if_neg ho, if_pos hr]
            rw [hf, if_neg ho, if_pos hr]
          · have hf : fromtimestampMs (pyNumVal v) = .instant (pyNumVal v) := by
              rw [fromtimestampMs, if_neg ho, if_neg hr]
            rw [hf, if_neg ho, if_neg hr]
      · have hb : ¬((jtruthy v && pyIsNumber v) = true) := by
          rw [Bool.and_eq_true]
          exact fun hand => hn hand.2
        rw [if_pos ht, if_neg hn, if_neg hb]
    · have hb : ¬((jtruthy v && pyIsNumber v) = true) := by
        rw [Bool.and_eq_true]
        exact fun hand => ht hand.1
      rw [if_neg ht, if_neg hb]

/-- C8 (counterexample): the claim says the two assemblies agree on every
sequence of JSON-object lines with no item after an end.  Two refutations:
on an item line whose `metadata` is the number `0`, `process_stream` returns
`"a"` but `parse_line` raises `AttributeError` in
`StreamChunk.__post_init__` (`metadata.get` on a non-dict); and on an item
line with object metadata carrying `timestamp: 10^22`, `process_stream`
still returns `"a"` while `parse_line` raises the uncaught conversion
exception of `datetime.fromtimestamp` — in both cases the parser records
nothing. -/
theorem claim8_counterexample :
    process_stream (.response 200 [RawLine.value (Json.obj [("type", Json.str "item"),
        ("content", Json.str "a"), ("metadata", Json.num 0)])]) = .ok "a" ∧
    feedAll [] [RawLine.value (Json.obj [("type", Json.str "item"),
        ("content", Json.str "a"), ("metadata", Json.num 0)])]
      = .error .attributeError ∧
    process_stream (.response 200 [RawLine.value (Json.obj [("type", Json.str "item"),
        ("content", Json.str "a"),
        ("metadata", Json.obj [("timestamp", Json.num 10000000000000000000000)])])])
      = .ok "a" ∧
    feedAll [] [RawLine.value (Json.obj [("type", Json.str "item"),
        ("content", Json.str "a"),
        ("metadata", Json.obj [("timestamp", Json.num 10000000000000000000000)])])]
      = .error .overflowError :=
  ⟨rfl, rfl, rfl, rfl⟩

/-- C8 (amended): for every finite sequence of JSON-object lines whose
`metadata` fields, when present, are objects whose `timestamp` value does
not make the conversion raise, and in which no item line occurs after an
end line, the content assembled by `StreamingWebhookHandler.process_stream`
equals `get_complete_content()` after feeding the same lines to
`parse_line` — including agreement on the `TypeError` raised when a truthy
non-string content is joined. -/
theorem claim8_amended (lines : List RawLine) (chunks : List StreamChunk)
    (hobj : lines.all lineIsObj = true) (hmeta : lines.all lineMetaOk = true)
    (hend : noItemAfterEnd lines = true)
    (hfeed : feedAll [] lines = .ok chunks) :
    process_stream (.response 200 lines) = get_complete_content chunks := by
  have hc := feedAll_filterMap lines chunks hfeed
  subst hc
  rw [process_stream, sendStreamingRequest_200]
  rw [runProcessStream_snd _ _ (filterMap_val_all_obj lines hobj)]
  rw [List.nil_append, ← truthy_collect lines hobj hmeta hend]
  exact (gcc_eq_pyJoin _).symm

/-- C8 (witness): a stream with a trailing start line after the end marker —
ignored by `process_stream`, recorded by the parser — still assembles to the
same `"hi"` on both sides. -/
theorem claim8_witness :
    ([startLine 1, itemLine "hi", itemLine "", endLine, startLine 2].all lineIsObj) = true ∧
    ([startLine 1, itemLine "hi", itemLine "", endLine, startLine 2].all lineMetaOk) = true ∧
    noItemAfterEnd [startLine 1, itemLine "hi", itemLine "", endLine, startLine 2] = true ∧
    feedAll [] [startLine 1, itemLine "hi", itemLine "", endLine, startLine 2]
      = .ok [⟨Json.str "start", Json.str "", Json.obj [("timestamp", Json.num 1)], some 1⟩,
             ⟨Json.str "item", Json.str "hi", Json.obj [], none⟩,
             ⟨Json.str "item", Json.str "", Json.obj [], none⟩,
             ⟨Json.str "end", Json.str "", Json.obj [], none⟩,
             ⟨Json.str "start", Json.str "", Json.obj [("timestamp", Json.num 2)], some 2⟩] ∧
    process_stream (.response 200 [startLine 1, itemLine "hi", itemLine "", endLine, startLine 2])
      = get_complete_content
          [⟨Json.str "start", Json.str "", Json.obj [("timestamp", Json.num 1)], some 1⟩,
           ⟨Json.str "item", Json.str "hi", Json.obj [], none⟩,
           ⟨Json.str "item", Json.str "", Json.obj [], none⟩,
           ⟨Json.str "end", Json.str "", Json.obj [], none⟩,
           ⟨Json.str "start", Json.str "", Json.obj [("timestamp", Json.num 2)], some 2⟩] :=
  ⟨rfl, rfl, rfl, rfl,
   claim8_amended [startLine 1, itemLine "hi", itemLine "", endLine, startLine 2]
     [⟨Json.str "start", Json.str "", Json.obj [("timestamp", Json.num 1)], some 1⟩,
      ⟨Json.str "item", Json.str "hi", Json.obj [], none⟩,
      ⟨Json.str "item", Json.str "", Json.obj [], none⟩,
      ⟨Json.str "end", Json.str "", Json.obj [], none⟩,
      ⟨Json.str "start", Json.str "", Json.obj [("timestamp", Json.num 2)], some 2⟩]
     rfl rfl rfl rfl⟩

/-- C9: a non-empty line that is valid JSON but not an object — a number, a
string, an array, a boolean or null — makes `parse_line` raise
`AttributeError` (`data.get` on a non-dict), which escapes the parser
boundary since only `json.JSONDecodeError` is caught. -/
theorem claim9_nonobject_raises :
    parse_line [] (.value (Json.num 5)) = .error .attributeError ∧
    parse_line [] (.value (Json.str "hello")) = .error .attributeError ∧
    parse_line [] (.value (Json.arr [])) = .error .attributeError ∧
    parse_line [] (.value (Json.bool true)) = .error .attributeError ∧
    parse_line [] (.value Json.null) = .error .attributeError :=
  ⟨rfl, rfl, rfl, rfl, rfl⟩

/-- C10: `StreamingContentProcessor.add_callback` looks up the attribute
`processed_callbacks`, which no constructor binds (the constructor binds
`processing_callbacks`), so for every callback argument the method raises
`AttributeError` and registering a callback through it never succeeds. -/
theorem claim10_add_callback_attribute_error :
    (∀ (α : Type) (cb : α),
      add_callback streamingContentProcessorInitAttrs cb = .error .attributeError) ∧
    ("processed_callbacks" ∈ streamingContentProcessorInitAttrs → False) ∧
    "processing_callbacks" ∈ streamingContentProcessorInitAttrs :=
  ⟨fun _ _ => rfl, by decide, by decide⟩

end N8nAgent
